import Mathlib

/-!
Shallow embedding of the quiz bot (`quiz-bot.py`): the question-bank
loader, the per-user quiz session engine (batching, answering, scoring),
the subscription gate, the admin grant command, and the random-mix
allocation.  Python strings are modelled at the character level
(`List Char`), Python `dict`s preserving insertion order as association
lists, Python `set`s as duplicate-free lists, and Python `int` as `Int`
(so that negative-index semantics of list subscripts can be stated).
Floating point appears only in the random-mix proportion computation and
is modelled by exact rationals.
-/

/-- The config constant `QUESTIONS_PER_BATCH = 10`. -/
def QUESTIONS_PER_BATCH : Nat := 10

/- ### Character-level string helpers, mirroring the Python string ops -/

/-- Python `content.replace('\r\n', '\n')`: leftmost, non-overlapping. -/
def normNewlines : List Char → List Char
  | [] => []
  | '\r' :: '\n' :: rest => '\n' :: normNewlines rest
  | c :: rest => c :: normNewlines rest

/-- Helper for `split('\n')`: accumulates the current piece reversed. -/
def splitLinesAux : List Char → List Char → List (List Char)
  | [], acc => [acc.reverse]
  | '\n' :: rest, acc => acc.reverse :: splitLinesAux rest []
  | c :: rest, acc => splitLinesAux rest (c :: acc)

/-- Python `s.split('\n')`. -/
def splitLines (cs : List Char) : List (List Char) :=
  splitLinesAux cs []

/-- Helper for `split('\n\n')`: leftmost, non-overlapping. -/
def splitBlocksAux : List Char → List Char → List (List Char)
  | [], acc => [acc.reverse]
  | '\n' :: '\n' :: rest, acc => acc.reverse :: splitBlocksAux rest []
  | c :: rest, acc => splitBlocksAux rest (c :: acc)

/-- Python `s.split('\n\n')`. -/
def splitBlocks (cs : List Char) : List (List Char) :=
  splitBlocksAux cs []

/-- Python `str.strip()`: drop whitespace at both ends. -/
def trimChars (cs : List Char) : List Char :=
  ((cs.dropWhile Char.isWhitespace).reverse.dropWhile Char.isWhitespace).reverse

/-- Python `str.startswith(pre)`. -/
def startsWithChars : List Char → List Char → Bool
  | [], _ => true
  | _ :: _, [] => false
  | p :: ps, c :: cs => p == c && startsWithChars ps cs

/-- Python `s.split(':', 1)[1]`: everything after the first colon, or `none`
when the string has no colon (the Python code would raise `IndexError`
there). -/
def afterFirstColon : List Char → Option (List Char)
  | [] => none
  | ':' :: rest => some rest
  | _ :: rest => afterFirstColon rest

/- ### Question records and the bank (Python dict, insertion-ordered) -/

/-- One parsed question, as stored by `load_questions`:
`{'question': ..., 'options': ..., 'correct': ...}`. -/
structure Question where
  question : String
  options : List String
  correct : String
deriving DecidableEq, Repr

instance : Inhabited Question :=
  ⟨{ question := "", options := [], correct := "" }⟩

/-- The subjects dictionary: subject name to its question list, in
insertion order (Python `dict` semantics). -/
abbrev Bank := List (String × List Question)

/-- Dict lookup `subjects[k]` (first — and by key uniqueness only — entry
with this key). -/
def bankLookup : Bank → String → Option (List Question)
  | [], _ => none
  | e :: rest, k => if e.1 == k then some e.2 else bankLookup rest k

/-- Dict assignment `subjects[k] = []`: overwrite in place if the key
exists (keeping its position), else append a new entry — Python dict assignment. -/
def bankSetEmpty (b : Bank) (k : String) : Bank :=
  if b.any (fun e => e.1 == k) then
    b.map (fun e => if e.1 == k then (e.1, []) else e)
  else
    b ++ [(k, [])]

/-- Append `subjects[k].append(q)` (only reached when the key exists). -/
def bankAppend (b : Bank) (k : String) (q : Question) : Bank :=
  b.map (fun e => if e.1 == k then (e.1, e.2 ++ [q]) else e)

/-- The option-format check `len(opt) > 2 and opt[1] == ')' and
opt[0].isalpha()`. -/
def optionLineOk (opt : List Char) : Bool :=
  match opt with
  | c0 :: c1 :: _ :: _ => c1 == ')' && c0.isAlpha
  | _ => false

/-- Loader state while folding over blocks: the subjects dict and the
`current_subject` variable. -/
structure LoadState where
  subjects : Bank
  currentSubject : Option String
deriving Repr

/-- The body of the `for block in blocks` loop of `load_questions`:
subject headers open (and re-initialize) a subject context; any other
block is parsed as one question and appended on success, skipped
otherwise. -/
def processBlock (st : LoadState) (block : List Char) : LoadState :=
  match splitLines (trimChars block) with
  | [] => st
  | line0 :: restLines =>
    if startsWithChars "Subject:".toList line0 then
      match afterFirstColon line0 with
      | none => { st with currentSubject := none }
      | some nameRaw =>
        let name := trimChars nameRaw
        if name.isEmpty then
          { st with currentSubject := none }
        else
          { subjects := bankSetEmpty st.subjects (String.mk name),
            currentSubject := some (String.mk name) }
    else
      match st.currentSubject with
      | none => st
      | some subj =>
        if restLines.length + 1 < 6 then st
        else if (bankLookup st.subjects subj).isNone then st
        else
          let options := restLines.take 4
          let answerLine := (restLines.drop 4).headD []
          if !(options.all optionLineOk) then st
          else if !(startsWithChars "Answer:".toList answerLine) then st
          else
            match afterFirstColon answerLine with
            | none => st
            | some aRaw =>
              let letter := trimChars aRaw
              let q : Question :=
                { question := String.mk line0,
                  options := options.map String.mk,
                  correct := String.mk (letter.map Char.toUpper) }
              if letter.length == 1 && letter.all Char.isAlpha then
                { st with subjects := bankAppend st.subjects subj q }
              else st

/-- The loader `load_questions`: normalize newlines, strip, split into blank-line
delimited blocks, and fold the block parser over them.  (The
file-not-found branch, which returns the empty dict, is outside the
model: the corpus text is the input.) -/
def load_questions (content : String) : Bank :=
  (((splitBlocks (trimChars (normNewlines content.toList)))).foldl
      processBlock { subjects := [], currentSubject := none }).subjects

/-- The letter of an option line as the bot displays it:
`opt[0].upper()`. -/
def optionLetterOf (opt : String) : Char :=
  (opt.toList.headD ' ').toUpper

/-- Whether a question's stored `correct` letter occurs among its
option letters. -/
def correctLetterAmong (q : Question) : Bool :=
  q.options.any (fun o => optionLetterOf o == q.correct.toList.headD ' ')

/- ### The per-user quiz session (`context.user_data`) -/

/-- The session fields living in `context.user_data` during a quiz:
`questions`, `index` (cursor), `score`, `answered_in_batch`,
`current_batch_indices`, and the family of `correct_<qid>` flags
(modelled as the list of credited qids; note qids are `Int` because the
callback payload may carry any integer). -/
structure Session where
  questions : List Question
  index : Nat
  score : Nat
  answeredInBatch : List Nat
  currentBatchIndices : List Nat
  correctlyAnswered : List Int
deriving DecidableEq, Repr

/-- The cleared session: after `context.user_data.clear()` every key
reads back as its default. -/
def Session.emptied : Session :=
  { questions := [], index := 0, score := 0, answeredInBatch := [],
    currentBatchIndices := [], correctlyAnswered := [] }

/-- The session as `start_quiz` initializes it just before sending the
first batch: cursor 0, score 0, empty batch bookkeeping.  `qs` is the
shuffled copy of the chosen subject's questions (or the random mix). -/
def initSession (qs : List Question) : Session :=
  { questions := qs, index := 0, score := 0, answeredInBatch := [],
    currentBatchIndices := [], correctlyAnswered := [] }

/-- Return value of `send_next_question_batch`. -/
inductive BatchResult where
  /-- Cursor already past the end: "Barcha savollarga javob berdingiz!",
  return `SELECTING_SUBJECT`. -/
  | selectingSubject
  /-- No questions at all: clear the session, `ConversationHandler.END`. -/
  | endedNoQuestions
  /-- A batch was sent, return `QUIZ_IN_PROGRESS`. -/
  | quizInProgress
deriving DecidableEq, Repr

/-- The per-question filter in the send loop: an option line counts as
valid when `len(opt) > 2 and opt[1] == ')'`. -/
def hasValidOption (q : Question) : Bool :=
  q.options.any (fun o =>
    match o.toList with
    | _ :: c1 :: _ :: _ => c1 == ')'
    | _ => false)

/-- The batch sender `send_next_question_batch`: if the cursor is past the end, offer a
new subject; otherwise send `questions[index : index+10]`, record the
batch indices, reset `answered_in_batch` (pre-marking questions with no
valid option, which the loop skips and marks answered), and advance the
cursor to the batch end. -/
def send_next_question_batch (s : Session) : Session × BatchResult :=
  let total := s.questions.length
  if total ≤ s.index then
    (s, .selectingSubject)
  else if s.questions.isEmpty then
    (Session.emptied, .endedNoQuestions)
  else
    let endIndex := min (s.index + QUESTIONS_PER_BATCH) total
    let batchIndices := List.range' s.index (endIndex - s.index)
    let preAnswered := batchIndices.filter
      (fun i => !(hasValidOption ((s.questions.drop i).headD default)))
    ({ s with currentBatchIndices := batchIndices,
              answeredInBatch := preAnswered,
              index := endIndex },
     .quizInProgress)

/-- Return value of `handle_answer`. -/
inductive AnswerOutcome where
  /-- Abort case: `qid` past the end or no questions: `user_data.clear()`,
  `ConversationHandler.END`. -/
  | aborted
  /-- Fault case: `questions[qid]` raises `IndexError` (`qid < -len`): the
  exception propagates out of the handler, session state keeps
  whatever was mutated before the subscript. -/
  | indexFault
  /-- Final batch fully answered: the finish message carrying the
  final score is sent and `SELECTING_SUBJECT` returned. -/
  | completed (scoreText : String)
  /-- Otherwise `QUIZ_IN_PROGRESS`. -/
  | quizInProgress
deriving DecidableEq, Repr

/-- Python list subscript `l[i]` with an `Int` index: non-negative
indices in range, negative indices counted from the end, `none` for
`IndexError`. -/
def pyIndex (l : List Question) (i : Int) : Option Question :=
  if 0 ≤ i ∧ i < l.length then l.get? i.toNat
  else if -(l.length : Int) ≤ i ∧ i < 0 then l.get? ((l.length : Int) + i).toNat
  else none

/-- The `score/total` fragment of the finish message
`"Test tugadi!\nSizning natijangiz: {score}/{total_questions}..."`. -/
def finishScoreText (sc total : Nat) : String :=
  toString sc ++ "/" ++ toString total

/-- The `answered_in_batch` update of `handle_answer`: add `qid` when
it belongs to the current batch and is not already recorded (Python
`set.add`, modelled as append-if-absent). -/
def answeredUpdate (s : Session) (qid : Int) : List Nat :=
  if (decide (0 ≤ qid) && s.currentBatchIndices.contains qid.toNat)
      && !(s.answeredInBatch.contains qid.toNat) then
    s.answeredInBatch ++ [qid.toNat]
  else s.answeredInBatch

/-- The answer handler `handle_answer` on a parsed callback `ans|qid|letter`: validate the
qid (upper bound only), record it in `answered_in_batch` when it lies
in the current batch, score the first correct answer per `correct_<qid>`
flag, and finish the quiz when the final batch is fully answered. -/
def handle_answer (s : Session) (qid : Int) (selectedLetter : String) :
    Session × AnswerOutcome :=
  let total := s.questions.length
  if s.questions.isEmpty || (total : Int) ≤ qid then
    (Session.emptied, .aborted)
  else
    let answered1 := answeredUpdate s qid
    match pyIndex s.questions qid with
    | none => ({ s with answeredInBatch := answered1 }, .indexFault)
    | some qd =>
      let isCorrect := selectedLetter == qd.correct
      let firstCorrect := isCorrect && !(s.correctlyAnswered.contains qid)
      let newScore := if firstCorrect then s.score + 1 else s.score
      let newCredited :=
        if firstCorrect then s.correctlyAnswered ++ [qid] else s.correctlyAnswered
      let s1 : Session :=
        { s with answeredInBatch := answered1, score := newScore,
                 correctlyAnswered := newCredited }
      let isLastBatch := s.currentBatchIndices.contains (total - 1)
      let allAnswered := s.currentBatchIndices.length ≤ answered1.length
      if isLastBatch && allAnswered then
        (s1, .completed (finishScoreText newScore total))
      else
        (s1, .quizInProgress)

/-- Return value of `handle_next`. -/
inductive NextOutcome where
  /-- Batch complete: delegate to `send_next_question_batch`. -/
  | advanced (r : BatchResult)
  /-- Premature: send "Iltimos, qolgan {remaining} ta savolga javob
  bering!" and stay in `QUIZ_IN_PROGRESS`. -/
  | stay (remaining : Nat)
deriving DecidableEq, Repr

/-- The navigation handler `handle_next`: advance to the next batch only when every question
of the current batch has been answered; otherwise report how many
remain. -/
def handle_next (s : Session) : Session × NextOutcome :=
  if s.currentBatchIndices.length ≤ s.answeredInBatch.length then
    let sr := send_next_question_batch s
    (sr.1, .advanced sr.2)
  else
    (s, .stay (s.currentBatchIndices.length - s.answeredInBatch.length))

/-- The session states reachable through the quiz lifecycle: a fresh
session from `start_quiz`, then any interleaving of batch sends,
answers and next-batch requests. -/
inductive Reachable : Session → Prop where
  | init (qs : List Question) : Reachable (initSession qs)
  | stepBatch {s : Session} : Reachable s →
      Reachable (send_next_question_batch s).1
  | stepAnswer {s : Session} (qid : Int) (letter : String) : Reachable s →
      Reachable (handle_answer s qid letter).1
  | stepNext {s : Session} : Reachable s → Reachable (handle_next s).1

/-- The batching invariant of C4: the batch window is either untouched
(fresh session) or a contiguous range starting at the cursor value
before the batch was sent, of length `min(10, total - start)`, with the
cursor sitting at the end of the window. -/
def BatchWindowInv (s : Session) : Prop :=
  (s.currentBatchIndices = [] ∧ s.index = 0) ∨
  (∃ start : Nat, start < s.questions.length ∧
    s.currentBatchIndices =
      List.range' start (min QUESTIONS_PER_BATCH (s.questions.length - start)) ∧
    s.index = start + min QUESTIONS_PER_BATCH (s.questions.length - start))

/- ### Subscription store, access gate and admin grant -/

/-- A document of the paid-users collection.  Timestamps are abstract
integers; a missing or `None` `subscription_expires_at` field is
`none`. -/
structure SubRecord where
  subscribedAt : Int
  subscriptionExpiresAt : Option Int
  username : Option String
deriving DecidableEq, Repr

/-- The collection, keyed by `chat_id` (unique index). -/
abbrev SubStore := List (Int × SubRecord)

/-- Store lookup `find_one({"chat_id": chatId})`. -/
def storeFind (store : SubStore) (chatId : Int) : Option SubRecord :=
  match store.find? (fun e => e.1 == chatId) with
  | some e => some e.2
  | none => none

/-- The gate `is_user_subscribed`: absent or expired records deny access; a
lookup fault (the surrounding `try`/`except`) fails closed.  The store
is returned unchanged to express that the check never writes. -/
def is_user_subscribed (store : SubStore) (fault : Bool) (chatId now : Int) :
    Bool × SubStore :=
  if fault then (false, store)
  else
    match storeFind store chatId with
    | none => (false, store)
    | some doc =>
      match doc.subscriptionExpiresAt with
      | some expiresAt => if expiresAt < now then (false, store) else (true, store)
      | none => (true, store)

/-- Digits of a decimal numeral, or `none` when empty or non-digit. -/
def digitsToNat : List Char → Option Nat
  | [] => none
  | cs =>
    if cs.all Char.isDigit then
      some (cs.foldl (fun acc c => acc * 10 + (c.toNat - 48)) 0)
    else none

/-- Python `int(s)` on command arguments: optional sign around a
decimal numeral, after stripping whitespace; `none` models
`ValueError`. -/
def pyParseInt (s : String) : Option Int :=
  match trimChars s.toList with
  | '+' :: rest => (digitsToNat rest).map (fun n => (n : Int))
  | '-' :: rest => (digitsToNat rest).map (fun n => -(n : Int))
  | cs => (digitsToNat cs).map (fun n => (n : Int))

/-- Storage operations issued by the admin command, in order. -/
inductive StoreOp where
  | findOne (chatId : Int)
  | updateOne (chatId : Int)
  | insertOne (chatId : Int)
deriving DecidableEq, Repr

/-- Replies of `/addsubscriber` (identified by which message text is
sent back to the caller). -/
inductive AdminReply where
  /-- Reply "Kechirasiz, bu buyruq faqat adminlar uchun." -/
  | notAdmin
  /-- Usage hint when no arguments are given. -/
  | usage
  /-- Reply "Xato Chat ID. Raqam bo'lishi kerak." -/
  | badChatId
  /-- Reply "Kun soni musbat raqam bo'lishi kerak." or "Xato kun soni." -/
  | badDays
  /-- Existing subscriber updated (with the new expiry, if any). -/
  | updated (chatId : Int) (expiresAt : Option Int)
  /-- New subscriber inserted (with the expiry, if any). -/
  | inserted (chatId : Int) (expiresAt : Option Int)
deriving DecidableEq, Repr

/-- Store update `update_one` on the unique `chat_id` key: `$set` keeps
`subscribed_at`, and the expiry field is either set to the new value or
`$unset`. -/
def storeUpdate (store : SubStore) (chatId : Int) (newExpiry : Option Int) :
    SubStore :=
  store.map (fun e =>
    if e.1 == chatId then
      (e.1, { e.2 with subscriptionExpiresAt := newExpiry })
    else e)

/-- The admin command `add_subscriber_command`: admin gate, argument validation, then the
upsert.  `expiry_days` is converted to a timestamp as `now + d` (the
`timedelta(days=d)` unit is absorbed into the abstract clock).  The
result carries the reply, the ordered storage operations performed, and
the resulting store. -/
def add_subscriber_command (adminChatId callerChatId : Int)
    (args : List String) (callerUsername : Option String)
    (store : SubStore) (now : Int) :
    AdminReply × List StoreOp × SubStore :=
  if callerChatId ≠ adminChatId then (.notAdmin, [], store)
  else
    match args with
    | [] => (.usage, [], store)
    | arg0 :: restArgs =>
      match pyParseInt arg0 with
      | none => (.badChatId, [], store)
      | some targetChatId =>
        let expiryDays : Option (Option Int) :=
          match restArgs with
          | [] => some none
          | arg1 :: _ =>
            match pyParseInt arg1 with
            | none => none
            | some d => if d ≤ 0 then none else some (some d)
        match expiryDays with
        | none => (.badDays, [], store)
        | some days =>
          let newExpiry := days.map (fun d => now + d)
          match storeFind store targetChatId with
          | some _ =>
            (.updated targetChatId newExpiry,
             [.findOne targetChatId, .updateOne targetChatId],
             storeUpdate store targetChatId newExpiry)
          | none =>
            (.inserted targetChatId newExpiry,
             [.findOne targetChatId, .insertOne targetChatId],
             store ++ [(targetChatId,
               { subscribedAt := now, subscriptionExpiresAt := newExpiry,
                 username := callerUsername })])

/- ### Random-mix allocation (`start_quiz`, `data == "random"`) -/

/-- Python `round` (round half to even) of the non-negative fraction
`a / b`, exactly.  The source computes
`round(target_total * (len(subj) / total_available))` in floating
point; the model evaluates the same fraction in exact arithmetic. -/
def pyRoundFrac (a b : Nat) : Nat :=
  let f := a / b
  let r := a % b
  if 2 * r < b then f
  else if b < 2 * r then f + 1
  else if f % 2 = 0 then f else f + 1

/-- Questions contributed by one non-empty subject of size `s`:
`min(max(1, round(target * (s / total))), s)` with
`target = target_total` and `total = total_available`. -/
def subjectContribution (target s total : Nat) : Nat :=
  min (max 1 (pyRoundFrac (target * s) total)) s

/-- The per-subject sample sizes of the random-mix loop, one entry per
non-empty subject (empty subjects are skipped by `continue`), with
`target_total = min(50, total_available)`. -/
def random_mix_counts (sizes : List Nat) : List Nat :=
  let totalAvailable := sizes.sum
  let targetTotal := min 50 totalAvailable
  sizes.filterMap (fun s =>
    if s = 0 then none
    else some (subjectContribution targetTotal s totalAvailable))

/- ### Spec-side predicates and concrete scenarios -/

/-- Shape of a loaded question as the (amended) C3 claim states it:
exactly four options and a `correct` letter that is the uppercase
normalization of a single alphabetic character. -/
def questionShapeOk (q : Question) : Prop :=
  q.options.length = 4 ∧
  ∃ c : Char, c.isAlpha = true ∧ q.correct = String.mk [c.toUpper]

/-- Every question of every subject of a bank is well shaped. -/
def BankShapeOk (b : Bank) : Prop :=
  ∀ e ∈ b, ∀ q ∈ e.2, questionShapeOk q

/-- A corpus whose single question block names an answer letter that is
not among its option letters. -/
def c3Corpus : String :=
  "Subject: Math\n\n1+1?\nA) 1\nB) 2\nC) 3\nD) 4\nAnswer: E"

/-- The question `load_questions` builds from `c3Corpus`. -/
def c3Question : Question :=
  { question := "1+1?", options := ["A) 1", "B) 2", "C) 3", "D) 4"],
    correct := "E" }

/-- A corpus in which `Subject: Math` occurs twice, with one question
under each occurrence. -/
def c10Corpus : String :=
  "Subject: Math\n\nQ1?\nA) 1\nB) 2\nC) 3\nD) 4\nAnswer: A\n\nSubject: Math\n\nQ2?\nA) 1\nB) 2\nC) 3\nD) 4\nAnswer: B"

/-- The question under the second `Subject: Math` occurrence of
`c10Corpus`. -/
def c10SecondQuestion : Question :=
  { question := "Q2?", options := ["A) 1", "B) 2", "C) 3", "D) 4"],
    correct := "B" }

/-- A four-option question whose correct letter is `B`. -/
def qOptB : Question :=
  { question := "Q?", options := ["A) x", "B) y", "C) z", "D) w"],
    correct := "B" }

/-- The "Math with 2 questions" scenario right after the first (and
only) batch is sent. -/
def mathSession1 : Session :=
  (send_next_question_batch (initSession [qOptB, qOptB])).1

/-- The same scenario after question 0 is answered correctly. -/
def mathSession2 : Session :=
  (handle_answer mathSession1 0 "B").1

/-- A 15-question session in its first batch with 3 of 10 batch
questions answered. -/
def c5Session : Session :=
  { questions := List.replicate 15 qOptB, index := 10, score := 3,
    answeredInBatch := [0, 1, 2], currentBatchIndices := List.range' 0 10,
    correctlyAnswered := [0, 1, 2] }

/-- A 25-question subject at session start, and after one, two and
three batch sends. -/
def c4Session0 : Session := initSession (List.replicate 25 qOptB)

/-- After the first batch send. -/
def c4Session1 : Session := (send_next_question_batch c4Session0).1

/-- After the second batch send. -/
def c4Session2 : Session := (send_next_question_batch c4Session1).1

/-- After the third batch send. -/
def c4Session3 : Session := (send_next_question_batch c4Session2).1

/- ### Helper lemmas -/

/-- For duplicate-free lists with `a ⊆ b`, the length comparison the
code performs (`len(answered) >= len(batch)`) is equivalent to set
coverage (`batch ⊆ answered`). -/
theorem covered_iff_length_le {a b : List Nat} (hsub : ∀ i ∈ a, i ∈ b)
    (hnda : a.Nodup) (hndb : b.Nodup) :
    b.length ≤ a.length ↔ ∀ i ∈ b, i ∈ a := by
  constructor
  · intro hlen i hib
    have hsp : List.Subperm a b := hnda.subperm (fun i hi => hsub i hi)
    exact (hsp.perm_of_length_le hlen).mem_iff.mpr hib
  · intro hcov
    exact (hndb.subperm (fun i hi => hcov i hi)).length_le

/-- For duplicate-free lists with `a ⊆ b`, the number of elements of
`b` missing from `a` is the length difference. -/
theorem length_filter_not_mem {a b : List Nat} (hsub : ∀ i ∈ a, i ∈ b)
    (hnda : a.Nodup) (hndb : b.Nodup) :
    (b.filter (fun i => !(a.contains i))).length = b.length - a.length := by
  have hperm : List.Perm a (b.filter (fun i => a.contains i)) := by
    apply List.Subperm.antisymm
    · apply hnda.subperm
      intro i hi
      exact List.mem_filter.mpr ⟨hsub i hi, by simpa using hi⟩
    · apply (hndb.filter _).subperm
      intro i hi
      have h2 := (List.mem_filter.mp hi).2
      simpa using h2
  have hlen : (b.filter (fun i => a.contains i)).length = a.length :=
    hperm.length_eq.symm
  have hpart := List.length_eq_length_filter_add
    (l := b) (fun i => a.contains i)
  omega

/- ### C6: the access gate -/

/-- C6: `is_user_subscribed` returns `false` when no record exists,
`false` (without touching the store) when the record's expiry is
strictly in the past, `true` when the expiry is absent or not in the
past, and `false` when the lookup faults. -/
theorem c6_access_gate (store : SubStore) (chatId now : Int) :
    (is_user_subscribed store true chatId now = (false, store)) ∧
    ((is_user_subscribed store false chatId now).2 = store) ∧
    (storeFind store chatId = none →
      (is_user_subscribed store false chatId now).1 = false) ∧
    (∀ doc expiresAt, storeFind store chatId = some doc →
      doc.subscriptionExpiresAt = some expiresAt → expiresAt < now →
      (is_user_subscribed store false chatId now).1 = false) ∧
    (∀ doc, storeFind store chatId = some doc →
      doc.subscriptionExpiresAt = none →
      (is_user_subscribed store false chatId now).1 = true) ∧
    (∀ doc expiresAt, storeFind store chatId = some doc →
      doc.subscriptionExpiresAt = some expiresAt → now ≤ expiresAt →
      (is_user_subscribed store false chatId now).1 = true) := by
  refine ⟨rfl, ?_, ?_, ?_, ?_, ?_⟩
  · unfold is_user_subscribed
    split
    · rfl
    · split
      · rfl
      · split
        · split <;> rfl
        · rfl
  · intro h
    unfold is_user_subscribed
    simp [h]
  · intro doc expiresAt hdoc hexp hlt
    unfold is_user_subscribed
    simp [hdoc, hexp, hlt]
  · intro doc hdoc hexp
    unfold is_user_subscribed
    simp [hdoc, hexp]
  · intro doc expiresAt hdoc hexp hge
    unfold is_user_subscribed
    simp [hdoc, hexp, not_lt.mpr hge]

/-- Witness for C6: the spec's examples — expiry one second in the
past denies, one second in the future or absent admits, and a faulting
lookup denies. -/
theorem c6_access_gate_witness :
    (is_user_subscribed
      [(7, { subscribedAt := 0, subscriptionExpiresAt := some 99,
             username := none })] false 7 100).1 = false ∧
    (is_user_subscribed
      [(7, { subscribedAt := 0, subscriptionExpiresAt := some 101,
             username := none })] false 7 100).1 = true ∧
    (is_user_subscribed
      [(7, { subscribedAt := 0, subscriptionExpiresAt := none,
             username := none })] false 7 100).1 = true ∧
    (is_user_subscribed [] false 7 100).1 = false := by
  refine ⟨?_, ?_, ?_, ?_⟩
  · exact (c6_access_gate _ 7 100).2.2.2.1
      { subscribedAt := 0, subscriptionExpiresAt := some 99, username := none }
      99 rfl rfl (by decide)
  · exact (c6_access_gate _ 7 100).2.2.2.2.2
      { subscribedAt := 0, subscriptionExpiresAt := some 101, username := none }
      101 rfl rfl (by decide)
  · exact (c6_access_gate _ 7 100).2.2.2.2.1
      { subscribedAt := 0, subscriptionExpiresAt := none, username := none }
      rfl rfl
  · exact (c6_access_gate _ 7 100).2.2.1 rfl

/- ### C7: random-mix allocation -/

/-- C7: each non-empty subject of size `s` contributes exactly
`min(s, max(1, round(target_total * s / total_available)))` questions —
at least one and never more than its size — and on subject sizes
`{5, 100, 5}` the allocation is `[2, 45, 2]`. -/
theorem c7_random_mix (s total : Nat) (hs : 1 ≤ s) :
    (subjectContribution (min 50 total) s total =
      min s (max 1 (pyRoundFrac (min 50 total * s) total))) ∧
    1 ≤ subjectContribution (min 50 total) s total ∧
    subjectContribution (min 50 total) s total ≤ s ∧
    random_mix_counts [5, 100, 5] = [2, 45, 2] := by
  refine ⟨?_, ?_, ?_, by decide⟩
  · unfold subjectContribution
    exact min_comm _ _
  · unfold subjectContribution
    omega
  · unfold subjectContribution
    omega

/-- Witness for C7, at subject size 5 of 110 total: the contribution is
2 — between 1 and the subject's size. -/
theorem c7_random_mix_witness :
    1 ≤ subjectContribution (min 50 110) 5 110 ∧
    subjectContribution (min 50 110) 5 110 ≤ 5 ∧
    subjectContribution (min 50 110) 5 110 = 2 :=
  ⟨(c7_random_mix 5 110 (by decide)).2.1,
   (c7_random_mix 5 110 (by decide)).2.2.1, by decide⟩

/- ### C9: admin grant command -/

/-- C9: a non-admin caller is denied with no storage operation, and a
supplied `expiry_days ≤ 0` is rejected as a validation error with no
storage operation (the reply is the days-validation error whenever the
target chat id parsed). -/
theorem c9_admin_grant (adminChatId callerChatId : Int) (args : List String)
    (callerUsername : Option String) (store : SubStore) (now : Int) :
    (callerChatId ≠ adminChatId →
      add_subscriber_command adminChatId callerChatId args callerUsername
        store now = (.notAdmin, [], store)) ∧
    (∀ arg0 arg1 rest targetChatId d,
      args = arg0 :: arg1 :: rest →
      pyParseInt arg0 = some targetChatId →
      pyParseInt arg1 = some d → d ≤ 0 →
      add_subscriber_command adminChatId adminChatId args callerUsername
        store now = (.badDays, [], store)) := by
  constructor
  · intro h
    unfold add_subscriber_command
    rw [if_pos h]
  · intro arg0 arg1 rest targetChatId d hargs hp0 hp1 hd
    subst hargs
    unfold add_subscriber_command
    rw [if_neg (by simp)]
    simp only [hp0, hp1, if_pos hd]

/-- Witness for C9: caller 5 (admin is 6) is denied without storage
access, and `expiry_days = 0` is rejected without storage access. -/
theorem c9_admin_grant_witness :
    add_subscriber_command 6 5 ["7"] none [] 100 = (.notAdmin, [], []) ∧
    add_subscriber_command 6 6 ["7", "0"] none [] 100 = (.badDays, [], []) :=
  ⟨(c9_admin_grant 6 5 ["7"] none [] 100).1 (by decide),
   (c9_admin_grant 6 6 ["7", "0"] none [] 100).2 "7" "0" [] 7 0 rfl
     (by decide) (by decide) (by decide)⟩

/- ### Loader lemmas -/

/-- Unfolding `bankLookup` one entry at a time. -/
theorem bankLookup_cons (x : String × List Question) (l : Bank) (k : String) :
    bankLookup (x :: l) k = if x.1 == k then some x.2 else bankLookup l k :=
  rfl

/-- After `subjects[k] = []`, looking up `k` yields the empty list. -/
theorem bankLookup_setEmpty (b : Bank) (k : String) :
    bankLookup (bankSetEmpty b k) k = some [] := by
  induction b with
  | nil =>
    unfold bankSetEmpty
    rw [if_neg (by simp)]
    simp [bankLookup_cons]
  | cons e rest ih =>
    unfold bankSetEmpty
    by_cases he : (e.1 == k) = true
    · rw [if_pos (by simp [List.any_cons, he]), List.map_cons, if_pos he,
        bankLookup_cons]
      simp [he]
    · by_cases h2 : rest.any (fun x => x.1 == k) = true
      · rw [if_pos (by simp [List.any_cons, h2]), List.map_cons, if_neg he,
          bankLookup_cons, if_neg he]
        unfold bankSetEmpty at ih
        rw [if_pos h2] at ih
        exact ih
      · rw [if_neg (by simp [List.any_cons, he, h2]), List.cons_append,
          bankLookup_cons, if_neg he]
        unfold bankSetEmpty at ih
        rw [if_neg h2] at ih
        exact ih

/-- Re-initializing `subjects[k] = []` preserves well-shapedness of the
bank. -/
theorem bankShapeOk_setEmpty {b : Bank} (h : BankShapeOk b) (k : String) :
    BankShapeOk (bankSetEmpty b k) := by
  unfold bankSetEmpty
  by_cases hc : b.any (fun e => e.1 == k)
  · rw [if_pos hc]
    intro e he q hq
    obtain ⟨e0, he0, heq⟩ := List.mem_map.mp he
    by_cases h0 : e0.1 == k
    · rw [if_pos h0] at heq
      subst heq
      exact absurd hq (List.not_mem_nil q)
    · rw [if_neg h0] at heq
      subst heq
      exact h e0 he0 q hq
  · rw [if_neg hc]
    intro e he q hq
    rcases List.mem_append.mp he with h1 | h2
    · exact h e h1 q hq
    · rw [List.mem_singleton.mp h2] at hq
      exact absurd hq (List.not_mem_nil q)

/-- Appending a well-shaped question preserves well-shapedness. -/
theorem bankShapeOk_append {b : Bank} (h : BankShapeOk b) (k : String)
    {q : Question} (hq : questionShapeOk q) :
    BankShapeOk (bankAppend b k q) := by
  intro e he q' hq'
  obtain ⟨e0, he0, heq⟩ := List.mem_map.mp he
  by_cases h0 : e0.1 == k
  · rw [if_pos h0] at heq
    subst heq
    rcases List.mem_append.mp hq' with h1 | h2
    · exact h e0 he0 q' h1
    · rw [List.mem_singleton.mp h2]
      exact hq
  · rw [if_neg h0] at heq
    subst heq
    exact h e0 he0 q' hq'

/-- Each block processed keeps every stored question well shaped. -/
theorem processBlock_shape (st : LoadState) (block : List Char)
    (h : BankShapeOk st.subjects) :
    BankShapeOk (processBlock st block).subjects := by
  unfold processBlock
  split
  · exact h
  · split
    · split
      · exact h
      · dsimp only
        split
        · exact h
        · exact bankShapeOk_setEmpty h _
    · split
      · exact h
      · split
        · exact h
        · split
          · exact h
          · dsimp only
            split
            · exact h
            · split
              · exact h
              · split
                · exact h
                · rename_i aRaw heq
                  split
                  · next hcond =>
                    apply bankShapeOk_append h
                    constructor
                    · simp only [List.length_map, List.length_take]
                      omega
                    · have hpair := (Bool.and_eq_true _ _).mp hcond
                      have hlen1 : (trimChars aRaw).length = 1 := by
                        simpa using hpair.1
                      obtain ⟨c, hc⟩ := List.length_eq_one.mp hlen1
                      refine ⟨c, ?_, ?_⟩
                      · have hall := hpair.2
                        rw [hc] at hall
                        simpa using hall
                      · rw [hc]
                        rfl
                  · exact h

/-- The loader's fold keeps the bank well shaped from any well-shaped
start. -/
theorem foldl_processBlock_shape (blocks : List (List Char)) :
    ∀ st : LoadState, BankShapeOk st.subjects →
      BankShapeOk (blocks.foldl processBlock st).subjects := by
  induction blocks with
  | nil => intro st h; exact h
  | cons b bs ih =>
    intro st h
    exact ih _ (processBlock_shape st b h)

/- ### C3: shape of loaded questions -/

/-- Counterexample for C3 as stated: `c3Corpus` is accepted by the
loader although its answer letter `E` is not among the option letters
`A`–`D` — the loader never checks membership. -/
theorem c3_counterexample :
    load_questions c3Corpus = [("Math", [c3Question])] ∧
    c3Question.options.length = 4 ∧
    correctLetterAmong c3Question = false := by
  refine ⟨by decide, by decide, by decide⟩

/-- C3 (amended): every question the loader stores has exactly 4
options and a `correct` letter that is the uppercase normalization of a
single alphabetic character; it is NOT checked against the option
letters. -/
theorem c3_loaded_question_shape (content : String) :
    BankShapeOk (load_questions content) := by
  unfold load_questions
  apply foldl_processBlock_shape
  intro e he q hq
  exact absurd he (List.not_mem_nil e)

/-- Witness for C3 (amended), at the concrete corpus `c3Corpus`. -/
theorem c3_loaded_question_shape_witness : questionShapeOk c3Question :=
  c3_loaded_question_shape c3Corpus ("Math", [c3Question]) (by decide)
    c3Question (by decide)

/- ### C10: duplicate subject headers -/

/-- C10: any block whose first line is `Subject: <name>` with a
non-empty trimmed name resets that subject's question list to empty —
so a second occurrence of the same name discards everything parsed
under the first, as the concrete two-occurrence corpus shows. -/
theorem c10_duplicate_subject_resets :
    (∀ (st : LoadState) (block line0 : List Char)
        (restLines : List (List Char)) (nameRaw : List Char),
      splitLines (trimChars block) = line0 :: restLines →
      startsWithChars "Subject:".toList line0 = true →
      afterFirstColon line0 = some nameRaw →
      trimChars nameRaw ≠ [] →
      bankLookup (processBlock st block).subjects
        (String.mk (trimChars nameRaw)) = some []) ∧
    load_questions c10Corpus = [("Math", [c10SecondQuestion])] := by
  constructor
  · intro st block line0 restLines nameRaw hsplit hsubj hcolon hname
    unfold processBlock
    rw [hsplit]
    have hempty : (trimChars nameRaw).isEmpty = false := by
      cases h : trimChars nameRaw with
      | nil => exact absurd h hname
      | cons c cs => rfl
    simp only [hsubj, hcolon, hempty]
    simp [bankLookup_setEmpty]
  · decide

/-- Witness for C10: processing a second `Subject: Math` header over a
bank that already holds a Math question empties the Math entry. -/
theorem c10_duplicate_subject_resets_witness :
    bankLookup
      (processBlock
        { subjects := [("Math", [c10SecondQuestion])],
          currentSubject := some "Math" }
        "Subject: Math".toList).subjects
      "Math" = some [] := by
  have h := c10_duplicate_subject_resets.1
    { subjects := [("Math", [c10SecondQuestion])],
      currentSubject := some "Math" }
    "Subject: Math".toList "Subject: Math".toList []
    " Math".toList (by decide) (by decide) (by decide) (by decide)
  simpa using h

/- ### Session engine lemmas -/

/-- Successful indexing: `pyIndex` succeeds on every index in
`[-len, len)`. -/
theorem pyIndex_eq_some_of (l : List Question) (i : Int)
    (hlo : -(l.length : Int) ≤ i) (hhi : i < (l.length : Int)) :
    ∃ qd, pyIndex l i = some qd := by
  unfold pyIndex
  by_cases h0 : 0 ≤ i
  · rw [if_pos ⟨h0, hhi⟩]
    exact ⟨_, List.get?_eq_get (by omega)⟩
  · rw [if_neg (fun hp => h0 hp.1), if_pos ⟨hlo, by omega⟩]
    exact ⟨_, List.get?_eq_get (by omega)⟩

/-- A successful `pyIndex` pins the index into `[-len, len)` (and the
list non-empty). -/
theorem pyIndex_bounds {l : List Question} {i : Int} {qd : Question}
    (h : pyIndex l i = some qd) :
    l ≠ [] ∧ -(l.length : Int) ≤ i ∧ i < (l.length : Int) := by
  unfold pyIndex at h
  by_cases h1 : 0 ≤ i ∧ i < (l.length : Int)
  · refine ⟨?_, by omega, h1.2⟩
    intro hnil
    subst hnil
    simp at h1
    omega
  · rw [if_neg h1] at h
    by_cases h2 : -(l.length : Int) ≤ i ∧ i < 0
    · refine ⟨?_, h2.1, by omega⟩
      intro hnil
      subst hnil
      simp at h2
      omega
    · rw [if_neg h2] at h
      exact absurd h (by simp)

/- ### C8: qid validation -/

/-- Counterexample for C8 as stated: in the two-question session,
`qid = -1` lies outside `[0, 2)` yet the handler neither aborts nor
clears the session — Python negative indexing resolves it to the last
question, which is scored. -/
theorem c8_out_of_range_counterexample :
    ((-1 : Int) < 0) ∧
    (handle_answer mathSession1 (-1) "B").2 = .quizInProgress ∧
    (handle_answer mathSession1 (-1) "B").1.score = mathSession1.score + 1 := by
  refine ⟨by decide, by decide, by decide⟩

/-- C8 (amended): the handler validates only the upper bound — it
aborts (clearing every session field) exactly when the question list is
empty or `qid ≥ len(questions)`; a negative `qid` is never rejected. -/
theorem c8_abort_iff_upper_bound (s : Session) (qid : Int) (letter : String) :
    ((handle_answer s qid letter).2 = .aborted ↔
      (s.questions = [] ∨ (s.questions.length : Int) ≤ qid)) ∧
    ((s.questions = [] ∨ (s.questions.length : Int) ≤ qid) →
      handle_answer s qid letter = (Session.emptied, .aborted)) := by
  unfold handle_answer
  dsimp only
  split
  · next hcond =>
    have hdisj : s.questions = [] ∨ (s.questions.length : Int) ≤ qid := by
      simpa using hcond
    exact ⟨⟨fun _ => hdisj, fun _ => rfl⟩, fun _ => rfl⟩
  · next hcond =>
    have hcon : s.questions ≠ [] ∧ ¬ ((s.questions.length : Int) ≤ qid) := by
      simpa [not_or] using hcond
    refine ⟨⟨fun h => ?_, fun hdisj => ?_⟩, fun hdisj => ?_⟩
    · exfalso
      cases hq : pyIndex s.questions qid with
      | none =>
        rw [hq] at h
        simp at h
      | some qd =>
        rw [hq] at h
        dsimp only at h
        split at h <;> simp at h
    · rcases hdisj with h1 | h2
      · exact absurd h1 hcon.1
      · exact absurd h2 hcon.2
    · rcases hdisj with h1 | h2
      · exact absurd h1 hcon.1
      · exact absurd h2 hcon.2

/-- Witness for C8 (amended): `qid = 5` in the two-question session
aborts with the session cleared. -/
theorem c8_abort_iff_upper_bound_witness :
    handle_answer mathSession1 5 "B" = (Session.emptied, .aborted) :=
  (c8_abort_iff_upper_bound mathSession1 5 "B").2 (Or.inr (by decide))

/- ### C5: premature next-batch request -/

/-- C5: a `next` request with unanswered batch questions leaves the
whole session unchanged and reports exactly the number of batch
questions not yet answered. -/
theorem c5_premature_next (s : Session)
    (hsub : ∀ i ∈ s.answeredInBatch, i ∈ s.currentBatchIndices)
    (hnd : s.answeredInBatch.Nodup) (hndb : s.currentBatchIndices.Nodup)
    (hlt : s.answeredInBatch.length < s.currentBatchIndices.length) :
    handle_next s =
      (s, .stay ((s.currentBatchIndices.filter
        (fun i => !(s.answeredInBatch.contains i))).length)) := by
  unfold handle_next
  rw [if_neg (by omega)]
  rw [length_filter_not_mem hsub hnd hndb]

/-- Witness for C5: 3 of 10 batch questions answered — the session is
untouched and "7 remaining" is reported. -/
theorem c5_premature_next_witness :
    handle_next c5Session = (c5Session, .stay 7) := by
  have h := c5_premature_next c5Session (by decide) (by decide) (by decide)
    (by decide)
  rw [h]
  decide

/- ### C4: batch windows -/

/-- Sending a batch establishes (or preserves) the batch-window
invariant. -/
theorem batchWindowInv_send (s : Session) (h : BatchWindowInv s) :
    BatchWindowInv (send_next_question_batch s).1 := by
  unfold send_next_question_batch
  dsimp only
  split
  · exact h
  · split
    · exact Or.inl ⟨rfl, rfl⟩
    · next hnle _ =>
      right
      refine ⟨s.index, by dsimp only; omega, ?_, ?_⟩
      · dsimp only
        congr 1
        unfold QUESTIONS_PER_BATCH
        omega
      · dsimp only
        unfold QUESTIONS_PER_BATCH
        omega

/-- Answer handling never touches the batch window or the cursor. -/
theorem batchWindowInv_answer (s : Session) (qid : Int) (letter : String)
    (h : BatchWindowInv s) :
    BatchWindowInv (handle_answer s qid letter).1 := by
  unfold handle_answer
  dsimp only
  split
  · exact Or.inl ⟨rfl, rfl⟩
  · split
    · exact h
    · split
      · exact h
      · exact h

/-- A next-batch request either advances through
`send_next_question_batch` or leaves the session unchanged. -/
theorem batchWindowInv_next (s : Session) (h : BatchWindowInv s) :
    BatchWindowInv (handle_next s).1 := by
  unfold handle_next
  dsimp only
  split
  · exact batchWindowInv_send s h
  · exact h

/-- C4: in every reachable session state the current batch is the
contiguous window `range'(start, min(10, total - start))` with the
cursor at its end (or still untouched), and a 25-question subject is
traversed in exactly three batches of sizes 10, 10 and 5, after which a
further send leaves the session unchanged. -/
theorem c4_batch_window :
    (∀ s : Session, Reachable s → BatchWindowInv s) ∧
    (c4Session1.currentBatchIndices = List.range' 0 10 ∧
      c4Session1.index = 10) ∧
    (c4Session2.currentBatchIndices = List.range' 10 10 ∧
      c4Session2.index = 20) ∧
    (c4Session3.currentBatchIndices = List.range' 20 5 ∧
      c4Session3.index = 25) ∧
    send_next_question_batch c4Session3 = (c4Session3, .selectingSubject) := by
  constructor
  · intro s hr
    induction hr with
    | init qs => exact Or.inl ⟨rfl, rfl⟩
    | stepBatch _ ih => exact batchWindowInv_send _ ih
    | stepAnswer qid letter _ ih => exact batchWindowInv_answer _ qid letter ih
    | stepNext _ ih => exact batchWindowInv_next _ ih
  · exact ⟨⟨by decide, by decide⟩, ⟨by decide, by decide⟩,
      ⟨by decide, by decide⟩, by decide⟩

/-- Witness for C4: the invariant holds at the session reached by
starting the 25-question subject and sending the first batch. -/
theorem c4_batch_window_witness : BatchWindowInv c4Session1 :=
  c4_batch_window.1 c4Session1
    (Reachable.stepBatch (Reachable.init (List.replicate 25 qOptB)))

/-- The full effect of an answer event whose `qid` indexes a question
(`pyIndex` succeeds): the answered set is updated, the first correct
answer per qid is credited, and the outcome is `completed` exactly when
the final batch is fully answered by count. -/
theorem handle_answer_eq (s : Session) (qid : Int) (letter : String)
    (qd : Question) (hq : pyIndex s.questions qid = some qd) :
    handle_answer s qid letter =
      ({ s with
          answeredInBatch := answeredUpdate s qid,
          score :=
            if (letter == qd.correct) && !(s.correctlyAnswered.contains qid)
            then s.score + 1 else s.score,
          correctlyAnswered :=
            if (letter == qd.correct) && !(s.correctlyAnswered.contains qid)
            then s.correctlyAnswered ++ [qid] else s.correctlyAnswered },
       if s.currentBatchIndices.contains (s.questions.length - 1)
           && decide (s.currentBatchIndices.length ≤
               (answeredUpdate s qid).length) then
         AnswerOutcome.completed
           (finishScoreText
             (if (letter == qd.correct) && !(s.correctlyAnswered.contains qid)
              then s.score + 1 else s.score)
             s.questions.length)
       else .quizInProgress) := by
  obtain ⟨hne, hlo, hhi⟩ := pyIndex_bounds hq
  have habort :
      (s.questions.isEmpty || decide ((s.questions.length : Int) ≤ qid))
        = false := by
    have h1 : s.questions.isEmpty = false := by simpa using hne
    have h2 : decide ((s.questions.length : Int) ≤ qid) = false :=
      decide_eq_false (not_le.mpr hhi)
    rw [h1, h2]
    rfl
  unfold handle_answer
  dsimp only
  rw [if_neg (by simp [habort])]
  rw [hq]
  dsimp only
  split
  · rfl
  · rfl

/-- The answered-set update only ever adds batch members. -/
theorem answeredUpdate_subset (s : Session) (qid : Int)
    (hsub : ∀ i ∈ s.answeredInBatch, i ∈ s.currentBatchIndices) :
    ∀ i ∈ answeredUpdate s qid, i ∈ s.currentBatchIndices := by
  intro i hi
  unfold answeredUpdate at hi
  by_cases hc : ((decide (0 ≤ qid) && s.currentBatchIndices.contains qid.toNat)
      && !(s.answeredInBatch.contains qid.toNat)) = true
  · rw [if_pos hc] at hi
    rcases List.mem_append.mp hi with h1 | h2
    · exact hsub i h1
    · rw [List.mem_singleton.mp h2]
      have hin := ((Bool.and_eq_true _ _).mp
        ((Bool.and_eq_true _ _).mp hc).1).2
      simpa using hin
  · rw [if_neg hc] at hi
    exact hsub i hi

/-- The answered-set update keeps the set duplicate-free. -/
theorem answeredUpdate_nodup (s : Session) (qid : Int)
    (hnd : s.answeredInBatch.Nodup) : (answeredUpdate s qid).Nodup := by
  unfold answeredUpdate
  by_cases hc : ((decide (0 ≤ qid) && s.currentBatchIndices.contains qid.toNat)
      && !(s.answeredInBatch.contains qid.toNat)) = true
  · rw [if_pos hc]
    have hnotmem : qid.toNat ∉ s.answeredInBatch := by
      have hb := ((Bool.and_eq_true _ _).mp hc).2
      simp only [Bool.not_eq_true'] at hb
      simpa using hb
    refine List.Nodup.append hnd (List.nodup_singleton _) ?_
    intro b hb hbx
    rw [List.mem_singleton.mp hbx] at hb
    exact hnotmem hb
  · rw [if_neg hc]
    exact hnd

/- ### C1: batch completion on answering -/

/-- C1: an in-range answer event completes the quiz with the
`score/total` message exactly when the updated answered set covers the
whole batch and the final question index lies in the batch; with the
batch covered but not final, the session stays in progress and a next
request advances; with the batch not covered it stays in progress, the
batch is unchanged and a next request would not advance. -/
theorem c1_answer_transitions (s : Session) (qid : Int) (letter : String)
    (hlo : -(s.questions.length : Int) ≤ qid)
    (hhi : qid < (s.questions.length : Int))
    (hsub : ∀ i ∈ s.answeredInBatch, i ∈ s.currentBatchIndices)
    (hnd : s.answeredInBatch.Nodup)
    (hndb : s.currentBatchIndices.Nodup) :
    (((s.questions.length - 1) ∈ s.currentBatchIndices ∧
       (∀ i ∈ s.currentBatchIndices,
         i ∈ (handle_answer s qid letter).1.answeredInBatch)) →
      (handle_answer s qid letter).2 =
        .completed (finishScoreText (handle_answer s qid letter).1.score
          s.questions.length)) ∧
    (((s.questions.length - 1) ∉ s.currentBatchIndices ∧
       (∀ i ∈ s.currentBatchIndices,
         i ∈ (handle_answer s qid letter).1.answeredInBatch)) →
      (handle_answer s qid letter).2 = .quizInProgress ∧
      handle_next (handle_answer s qid letter).1 =
        ((send_next_question_batch (handle_answer s qid letter).1).1,
         .advanced (send_next_question_batch
            (handle_answer s qid letter).1).2)) ∧
    ((¬ ∀ i ∈ s.currentBatchIndices,
         i ∈ (handle_answer s qid letter).1.answeredInBatch) →
      (handle_answer s qid letter).2 = .quizInProgress ∧
      (handle_answer s qid letter).1.currentBatchIndices =
        s.currentBatchIndices ∧
      ∃ m, 0 < m ∧ handle_next (handle_answer s qid letter).1 =
        ((handle_answer s qid letter).1, .stay m)) := by
  obtain ⟨qd, hq⟩ := pyIndex_eq_some_of s.questions qid hlo hhi
  have heq := handle_answer_eq s qid letter qd hq
  have hans : (handle_answer s qid letter).1.answeredInBatch =
      answeredUpdate s qid := by rw [heq]
  have hbatch : (handle_answer s qid letter).1.currentBatchIndices =
      s.currentBatchIndices := by rw [heq]
  have hsub' := answeredUpdate_subset s qid hsub
  have hnd' := answeredUpdate_nodup s qid hnd
  have hbridge := covered_iff_length_le hsub' hnd' hndb
  refine ⟨?_, ?_, ?_⟩
  · rintro ⟨hlast, hcov⟩
    rw [hans] at hcov
    have hlenle : s.currentBatchIndices.length ≤
        (answeredUpdate s qid).length := hbridge.mpr hcov
    rw [heq]
    dsimp only
    rw [if_pos (by simp [hlast, hlenle])]
  · rintro ⟨hlast, hcov⟩
    rw [hans] at hcov
    have hlenle : s.currentBatchIndices.length ≤
        (answeredUpdate s qid).length := hbridge.mpr hcov
    constructor
    · rw [heq]
      dsimp only
      rw [if_neg (by simp [hlast])]
    · unfold handle_next
      rw [hans, hbatch, if_pos hlenle]
  · intro hncov
    rw [hans] at hncov
    have hnle : ¬ (s.currentBatchIndices.length ≤
        (answeredUpdate s qid).length) := fun hle => hncov (hbridge.mp hle)
    refine ⟨?_, hbatch, ?_⟩
    · rw [heq]
      dsimp only
      rw [if_neg (by simp [hnle])]
    · refine ⟨s.currentBatchIndices.length - (answeredUpdate s qid).length,
        by omega, ?_⟩
      unfold handle_next
      rw [hans, hbatch, if_neg hnle]

/-- Witness for C1: in the 2-question "Math" run, answering the second
question correctly completes the quiz and the emitted score reads
"2/2". -/
theorem c1_answer_transitions_witness :
    (handle_answer mathSession2 1 "B").2 =
      .completed (finishScoreText (handle_answer mathSession2 1 "B").1.score
        mathSession2.questions.length) ∧
    finishScoreText (handle_answer mathSession2 1 "B").1.score
      mathSession2.questions.length = "2/2" := by
  constructor
  · exact (c1_answer_transitions mathSession2 1 "B" (by decide) (by decide)
      (by decide) (by decide) (by decide)).1 ⟨by decide, by decide⟩
  · decide

/- ### C2: idempotent scoring -/

/-- First correct answer to `qid`: score +1, qid credited, everything
scoring-relevant else unchanged. -/
theorem score_first_correct (s : Session) (qid : Int) (qd : Question)
    (hq : pyIndex s.questions qid = some qd)
    (hmem : qid ∉ s.correctlyAnswered) :
    (handle_answer s qid qd.correct).1.score = s.score + 1 ∧
    (handle_answer s qid qd.correct).1.correctlyAnswered =
      s.correctlyAnswered ++ [qid] ∧
    (handle_answer s qid qd.correct).1.questions = s.questions := by
  have hcontains : s.correctlyAnswered.contains qid = false := by
    simpa using hmem
  rw [handle_answer_eq s qid qd.correct qd hq]
  refine ⟨?_, ?_, rfl⟩ <;> simp [hcontains, hmem]

/-- A correct answer to an already-credited `qid`: nothing
scoring-relevant changes. -/
theorem score_repeat_correct (s : Session) (qid : Int) (qd : Question)
    (hq : pyIndex s.questions qid = some qd)
    (hmem : qid ∈ s.correctlyAnswered) :
    (handle_answer s qid qd.correct).1.score = s.score ∧
    (handle_answer s qid qd.correct).1.correctlyAnswered =
      s.correctlyAnswered ∧
    (handle_answer s qid qd.correct).1.questions = s.questions := by
  have hcontains : s.correctlyAnswered.contains qid = true := by
    simpa using hmem
  rw [handle_answer_eq s qid qd.correct qd hq]
  refine ⟨?_, ?_, rfl⟩ <;> simp [hcontains, hmem]

/-- A wrong answer: nothing scoring-relevant changes. -/
theorem score_wrong (s : Session) (qid : Int) (qd : Question) (w : String)
    (hq : pyIndex s.questions qid = some qd) (hw : w ≠ qd.correct) :
    (handle_answer s qid w).1.score = s.score ∧
    (handle_answer s qid w).1.correctlyAnswered = s.correctlyAnswered ∧
    (handle_answer s qid w).1.questions = s.questions := by
  have hbeq : (w == qd.correct) = false := by simpa using hw
  rw [handle_answer_eq s qid w qd hq]
  refine ⟨?_, ?_, rfl⟩ <;> simp [hbeq, hw]

/-- C2: the score increments by exactly 1 on the first correct answer
to a `qid`, repeat correct answers never increment it again, a wrong
answer changes nothing, and a wrong answer followed by a correct one
still yields exactly +1 (only correctness matters, not order). -/
theorem c2_scoring_idempotent (s : Session) (qid : Int) (qd : Question)
    (w : String) (hq : pyIndex s.questions qid = some qd) :
    (qid ∉ s.correctlyAnswered →
      (handle_answer s qid qd.correct).1.score = s.score + 1 ∧
      qid ∈ (handle_answer s qid qd.correct).1.correctlyAnswered) ∧
    (qid ∈ s.correctlyAnswered →
      (handle_answer s qid qd.correct).1.score = s.score) ∧
    (w ≠ qd.correct →
      (handle_answer s qid w).1.score = s.score ∧
      (handle_answer s qid w).1.correctlyAnswered = s.correctlyAnswered) ∧
    (qid ∉ s.correctlyAnswered →
      (handle_answer (handle_answer s qid qd.correct).1 qid qd.correct).1.score
        = s.score + 1) ∧
    (w ≠ qd.correct → qid ∉ s.correctlyAnswered →
      (handle_answer (handle_answer s qid w).1 qid qd.correct).1.score
        = s.score + 1) := by
  refine ⟨?_, ?_, ?_, ?_, ?_⟩
  · intro hmem
    obtain ⟨h1, h2, _⟩ := score_first_correct s qid qd hq hmem
    exact ⟨h1, by rw [h2]; exact List.mem_append_right _ (List.mem_singleton_self qid)⟩
  · intro hmem
    exact (score_repeat_correct s qid qd hq hmem).1
  · intro hw
    obtain ⟨h1, h2, _⟩ := score_wrong s qid qd w hq hw
    exact ⟨h1, h2⟩
  · intro hmem
    obtain ⟨h1, h2, h3⟩ := score_first_correct s qid qd hq hmem
    have hq1 : pyIndex (handle_answer s qid qd.correct).1.questions qid
        = some qd := by rw [h3]; exact hq
    have hmem1 : qid ∈ (handle_answer s qid qd.correct).1.correctlyAnswered := by
      rw [h2]
      exact List.mem_append_right _ (List.mem_singleton_self qid)
    have hrep := (score_repeat_correct _ qid qd hq1 hmem1).1
    rw [hrep, h1]
  · intro hw hmem
    obtain ⟨h1, h2, h3⟩ := score_wrong s qid qd w hq hw
    have hq1 : pyIndex (handle_answer s qid w).1.questions qid = some qd := by
      rw [h3]; exact hq
    have hmem1 : qid ∉ (handle_answer s qid w).1.correctlyAnswered := by
      rw [h2]; exact hmem
    have hfc := (score_first_correct _ qid qd hq1 hmem1).1
    rw [hfc, h1]

/-- Witness for C2: first correct answer scores +1, and wrong-then-
correct on the same question also scores exactly +1. -/
theorem c2_scoring_idempotent_witness :
    (handle_answer mathSession1 0 "B").1.score = mathSession1.score + 1 ∧
    (handle_answer (handle_answer mathSession1 0 "A").1 0 "B").1.score
      = mathSession1.score + 1 := by
  constructor
  · exact ((c2_scoring_idempotent mathSession1 0 qOptB "A" (by decide)).1
      (by decide)).1
  · exact (c2_scoring_idempotent mathSession1 0 qOptB "A" (by decide)).2.2.2.2
      (by decide) (by decide)
